import Mathlib

/-!
Shallow embedding of the Course lifecycle manager from
`src/aci-learning-exercise/src/controllers/courses.controller.ts` together
with the Course entity of `src/aci-learning-exercise/src/models/course.model.ts`.

JavaScript fields that can be `undefined`, `null` or carry a value are
modelled by the three-state type `JsVal`.  Timestamps (`createdAt`,
`updatedAt`, the payload of `deletedAt`) are modelled as natural numbers;
`new Date().toISOString()` becomes an explicit `now : Nat` parameter of each
operation.  The persistence layer (LoopBack's `CourseRepository`) is not part
of the repository's sources; it is modelled from the spec's §6 interface:
`create(record) -> record`, `find(filter) -> [record]` (equality filter on
`deletedAt`, ascending sort on `createdAt`, field projection),
`findById(id) -> record | NotFound`, `replaceById(id, record) -> success | NotFound`.
HTTP errors: `BadRequest` is the spec's `InvalidArgument` (400), `NotFound`
is 404, `Gone` is 410.
-/

/-- Three-state JavaScript value: `undefined`, `null`, or a value. -/
inductive JsVal (α : Type) where
  | undef : JsVal α
  | null : JsVal α
  | val : α → JsVal α
  deriving DecidableEq, Repr

/-- The Course entity (`course.model.ts`): `id` is server-generated,
`name` and `status` are strings from the request body (hence possibly
`undefined`/`null` at runtime), `createdAt`/`updatedAt` are timestamps,
`deletedAt` is a nullable timestamp. -/
structure Course where
  id : Nat
  name : JsVal String
  status : JsVal String
  createdAt : Nat
  updatedAt : Nat
  deletedAt : JsVal Nat
  deriving DecidableEq, Repr

/-- Candidate Course fields for `create` (the POST schema excludes `id`;
timestamps are assigned by the store). -/
structure NewCourse where
  name : JsVal String
  status : JsVal String
  deriving DecidableEq, Repr

/-- The store's content: the rows of the single Course table. -/
abbrev Store := List Course

/-- HTTP error classes raised by the controller. -/
inductive Err where
  | BadRequest : Err
  | NotFound : Err
  | Gone : Err
  deriving DecidableEq, Repr

deriving instance DecidableEq for Except

/-- `validateStatus` (controller lines 205-214): a JS `switch` on the status
string; only the three enumerated values are accepted, everything else
(including `undefined` and `null`) falls through to `default`. -/
def validateStatus : JsVal String → Bool
  | .val "scheduled" => true
  | .val "in_production" => true
  | .val "available" => true
  | _ => false

/-- The name test of `create` (line 55) and `replaceById` (line 164):
`course.name === null || course.name === ''`.  Strict equality, so
`undefined` passes. -/
def nameInvalid : JsVal String → Bool
  | .null => true
  | .val "" => true
  | _ => false

/-- `isDeleted` (controller lines 216-218): `!(course.deletedAt === null)`.
Strict comparison with `null`: a record with `undefined` `deletedAt`
counts as deleted. -/
def isDeleted (c : Course) : Bool :=
  !(c.deletedAt == JsVal.null)

/-- The store's row lookup by id. -/
def storeGet (s : Store) (id : Nat) : Option Course :=
  s.find? (fun c => c.id == id)

/-- Fresh id assignment by the store (`id` is server-generated and unique;
the scheme — one more than the maximum id in use — realises that). -/
def freshId (s : Store) : Nat :=
  (s.map Course.id).foldr max 0 + 1

/-- Modelled from the spec: the store's `create(record) -> record`
(`CourseRepository.create`, not in src/).  Assigns a fresh id, sets
`createdAt` and `updatedAt` to now and `deletedAt` to null (spec §8:
"record has generated id, createdAt=updatedAt=now, deletedAt=null"),
and appends the row. -/
def storeCreate (s : Store) (input : NewCourse) (now : Nat) : Store × Course :=
  let c : Course :=
    { id := freshId s, name := input.name, status := input.status,
      createdAt := now, updatedAt := now, deletedAt := JsVal.null }
  (s ++ [c], c)

/-- Modelled from the spec: the store's `replaceById(id, record)` write
(`CourseRepository.replaceById`, not in src/): overwrites the row with the
given id with the supplied record (the row keeps its id — spec §3:
"`id` never changes once assigned"). -/
def storeReplace (s : Store) (id : Nat) (c : Course) : Store :=
  s.map (fun r => if r.id == id then { c with id := id } else r)

/-- `create` (controller lines 40-72): name check, then status check, then
the store create; returns the persisted record.  A thrown error leaves the
store untouched because it precedes the store call. -/
def create (s : Store) (input : NewCourse) (now : Nat) : Store × Except Err Course :=
  if nameInvalid input.name then (s, .error .BadRequest)
  else if !(validateStatus input.status) then (s, .error .BadRequest)
  else
    let (s', c) := storeCreate s input now
    (s', .ok c)

/-- `findById` (controller lines 124-142): the store's
`findById(id) -> record | NotFound`, then the `isDeleted` gate throwing
`Gone`, else the full record.  Read-only. -/
def findById (s : Store) (id : Nat) : Except Err Course :=
  match storeGet s id with
  | none => .error .NotFound
  | some course =>
    if isDeleted course then .error .Gone
    else .ok course

/-- `replaceById` (controller lines 154-175): stamps `updatedAt := now` on
the request body, runs the name and status checks, then the store's
`replaceById(id, ...)` which fails `NotFound` when the id is absent.
No `deletedAt` check appears anywhere on this path. -/
def replaceById (s : Store) (id : Nat) (input : Course) (now : Nat) :
    Store × Except Err Unit :=
  let course := { input with updatedAt := now }
  if nameInvalid course.name then (s, .error .BadRequest)
  else if !(validateStatus course.status) then (s, .error .BadRequest)
  else
    match storeGet s id with
    | none => (s, .error .NotFound)
    | some _ => (storeReplace s id course, .ok ())

/-- `deleteById` (controller lines 187-203): fetch through `findById`
(propagating `NotFound` / `Gone`), re-test `isDeleted` (unreachable, since
`findById` already threw), then replace with the fetched record with
`deletedAt` set to now — through the controller's own `replaceById`,
which therefore also restamps `updatedAt`. -/
def deleteById (s : Store) (id : Nat) (now : Nat) : Store × Except Err Unit :=
  match findById s id with
  | .error e => (s, .error e)
  | .ok course =>
    if isDeleted course then (s, .error .Gone)
    else replaceById s id { course with deletedAt := JsVal.val now } now

/-- The caller-supplied filter of GET `/courses`, restricted to the keys the
spec's §6 store interface supports: an equality condition on `deletedAt`,
the ascending order on `createdAt`, and the `{id, name}` projection. -/
structure CourseFilter where
  whereDeletedAtEq : Option (JsVal Nat)
  orderCreatedAtAsc : Bool
  fieldsIdName : Bool
  deriving DecidableEq, Repr

/-- The filter literal built by `find` (controller lines 94-103): the spread
of the caller's filter is followed by fixed `where`, `order` and `fields`
keys, so all three supported keys are overridden whatever the caller sent. -/
def mergeFilter (_f : CourseFilter) : CourseFilter :=
  { whereDeletedAtEq := some JsVal.null,
    orderCreatedAtAsc := true,
    fieldsIdName := true }

/-- The `{id, name}` projection of a row. -/
structure CourseItem where
  id : Nat
  name : JsVal String
  deriving DecidableEq, Repr

/-- Rows as returned by GET `/courses`: either projected or full. -/
def projectRow (fieldsIdName : Bool) (c : Course) : CourseItem ⊕ Course :=
  if fieldsIdName then .inl { id := c.id, name := c.name } else .inr c

/-- Comparison used by the store's `createdAt ASC` sort. -/
def createdLe (a b : Course) : Prop :=
  a.createdAt ≤ b.createdAt

instance : DecidableRel createdLe := fun a b => Nat.decLe a.createdAt b.createdAt

instance : IsTotal Course createdLe := ⟨fun a b => Nat.le_total a.createdAt b.createdAt⟩

instance : IsTrans Course createdLe := ⟨fun _ _ _ h h' => Nat.le_trans h h'⟩

/-- Modelled from the spec: the store's `find(filter) -> [record]`
(`CourseRepository.find`, not in src/), supporting exactly what §6 names:
the equality filter on `deletedAt`, the ascending sort on `createdAt`,
and the field projection. -/
def storeFind (s : Store) (f : CourseFilter) : List (CourseItem ⊕ Course) :=
  let rows := match f.whereDeletedAtEq with
    | none => s
    | some v => s.filter (fun c => c.deletedAt == v)
  let rows := if f.orderCreatedAtAsc then List.insertionSort createdLe rows else rows
  rows.map (projectRow f.fieldsIdName)

/-- `find` (controller lines 91-108), the listing path: builds the merged
filter and hands it to the store. -/
def list (s : Store) (f : CourseFilter) : List (CourseItem ⊕ Course) :=
  storeFind s (mergeFilter f)

/-! ## Helper lemmas and sample data -/

/-- The set of statuses accepted by `validateStatus`. -/
def goodStatus (v : JsVal String) : Prop :=
  v = JsVal.val "scheduled" ∨ v = JsVal.val "in_production" ∨ v = JsVal.val "available"

instance (v : JsVal String) : Decidable (goodStatus v) := by
  unfold goodStatus; infer_instance

lemma validateStatus_iff (v : JsVal String) :
    validateStatus v = true ↔ goodStatus v := by
  cases v with
  | undef => simp [validateStatus, goodStatus]
  | null => simp [validateStatus, goodStatus]
  | val s => unfold validateStatus goodStatus; split <;> simp_all

lemma nameInvalid_iff (v : JsVal String) :
    nameInvalid v = true ↔ (v = JsVal.null ∨ v = JsVal.val "") := by
  cases v with
  | undef => simp [nameInvalid]
  | null => simp [nameInvalid]
  | val s => unfold nameInvalid; split <;> simp_all

lemma storeGet_cons_of_ne (l : Store) (b : Course) (id : Nat) (hb : b.id ≠ id) :
    storeGet (b :: l) id = storeGet l id := by
  unfold storeGet
  rw [List.find?_cons_of_neg]
  simp [hb]

lemma storeGet_storeReplace (s : Store) (id : Nat) (d : Course)
    (h : (storeGet s id).isSome) :
    storeGet (storeReplace s id d) id = some { d with id := id } := by
  induction s with
  | nil => simp [storeGet] at h
  | cons a t ih =>
    by_cases ha : a.id = id
    · have hrepl : storeReplace (a :: t) id d =
          { d with id := id } :: storeReplace t id d := by
        unfold storeReplace
        simp [ha]
      rw [hrepl]
      unfold storeGet
      rw [List.find?_cons_of_pos]
      simp
    · have hrepl : storeReplace (a :: t) id d = a :: storeReplace t id d := by
        unfold storeReplace
        simp [ha]
      rw [hrepl, storeGet_cons_of_ne _ a id ha]
      exact ih (by rwa [storeGet_cons_of_ne _ a id ha] at h)

lemma le_foldr_max (x : Nat) (l : List Nat) (h : x ∈ l) :
    x ≤ l.foldr max 0 := by
  induction l with
  | nil => cases h
  | cons a t ih =>
    rcases List.mem_cons.mp h with rfl | hm
    · exact Nat.le_max_left _ _
    · exact Nat.le_trans (ih hm) (Nat.le_max_right _ _)

lemma freshId_not_used (s : Store) : ∀ r ∈ s, r.id ≠ freshId s := by
  intro r hr heq
  have h1 : r.id ≤ (s.map Course.id).foldr max 0 :=
    le_foldr_max r.id _ (List.mem_map_of_mem Course.id hr)
  unfold freshId at heq
  omega

lemma storeGet_append_fresh (s : Store) (c : Course)
    (h : ∀ r ∈ s, r.id ≠ c.id) :
    storeGet (s ++ [c]) c.id = some c := by
  induction s with
  | nil => simp [storeGet]
  | cons a t ih =>
    have ha : (a.id == c.id) = false := by
      simp [h a (List.mem_cons_self a t)]
    unfold storeGet at *
    simp only [List.cons_append, List.find?_cons, ha]
    exact ih (fun r hr => h r (List.mem_cons_of_mem a hr))

/-- A sample active course. -/
def courseA : Course :=
  { id := 1, name := JsVal.val "Intro to Go", status := JsVal.val "scheduled",
    createdAt := 0, updatedAt := 0, deletedAt := JsVal.null }

/-- A sample soft-deleted course (deleted at time 5). -/
def courseDel : Course :=
  { id := 1, name := JsVal.val "Intro to Go", status := JsVal.val "scheduled",
    createdAt := 0, updatedAt := 0, deletedAt := JsVal.val 5 }

/-- A sample course whose `deletedAt` is `undefined` rather than `null`. -/
def courseU : Course :=
  { id := 1, name := JsVal.val "Intro to Go", status := JsVal.val "scheduled",
    createdAt := 0, updatedAt := 0, deletedAt := JsVal.undef }

/-! ## Claim theorems -/

/-- C4: for every input whose name is null or the empty string, both `create`
and `replaceById` fail with `InvalidArgument` (HTTP 400, here `Err.BadRequest`)
and the store is returned unchanged — the throw precedes any store call, so no
write is issued. -/
theorem create_replace_reject_bad_name (s : Store) (id now : Nat)
    (input : NewCourse) (body : Course)
    (h1 : input.name = JsVal.null ∨ input.name = JsVal.val "")
    (h2 : body.name = JsVal.null ∨ body.name = JsVal.val "") :
    create s input now = (s, Except.error Err.BadRequest) ∧
    replaceById s id body now = (s, Except.error Err.BadRequest) := by
  have hn1 : nameInvalid input.name = true := (nameInvalid_iff _).mpr h1
  have hn2 : nameInvalid body.name = true := (nameInvalid_iff _).mpr h2
  constructor
  · simp [create, hn1]
  · simp [replaceById, hn2]

/-- Witness for C4: a null-name create and an empty-name replace both yield
`BadRequest` on the empty store. -/
theorem create_replace_reject_bad_name_witness :
    create [] { name := JsVal.null, status := JsVal.val "scheduled" } 0 =
      ([], Except.error Err.BadRequest) ∧
    replaceById [] 1
      { id := 1, name := JsVal.val "", status := JsVal.val "scheduled",
        createdAt := 0, updatedAt := 0, deletedAt := JsVal.null } 0 =
      ([], Except.error Err.BadRequest) :=
  create_replace_reject_bad_name [] 1 0 _ _ (Or.inl rfl) (Or.inr rfl)

/-- C5: for every input whose status is outside
{scheduled, in_production, available}, both `create` and `replaceById` fail
with `InvalidArgument` and leave the store unchanged; for a status among the
three, the status check (`validateStatus`) passes. -/
theorem create_replace_reject_bad_status (s : Store) (id now : Nat)
    (input : NewCourse) (body : Course) :
    (¬ goodStatus input.status →
      create s input now = (s, Except.error Err.BadRequest)) ∧
    (¬ goodStatus body.status →
      replaceById s id body now = (s, Except.error Err.BadRequest)) ∧
    (∀ v, goodStatus v → validateStatus v = true) := by
  refine ⟨?_, ?_, fun v hv => (validateStatus_iff v).mpr hv⟩
  · intro hbad
    have hv : validateStatus input.status = false := by
      cases hb : validateStatus input.status
      · rfl
      · exact absurd ((validateStatus_iff _).mp hb) hbad
    by_cases hn : nameInvalid input.name = true
    · simp [create, hn]
    · simp [create, hn, hv]
  · intro hbad
    have hv : validateStatus body.status = false := by
      cases hb : validateStatus body.status
      · rfl
      · exact absurd ((validateStatus_iff _).mp hb) hbad
    by_cases hn : nameInvalid body.name = true
    · simp [replaceById, hn]
    · simp [replaceById, hn, hv]

/-- Witness for C5: creating with status "bogus" yields `BadRequest`. -/
theorem create_replace_reject_bad_status_witness :
    create [] { name := JsVal.val "X", status := JsVal.val "bogus" } 0 =
      ([], Except.error Err.BadRequest) :=
  (create_replace_reject_bad_status [] 1 0 _ courseA).1 (by decide)

/-- C7: `getById` is a trichotomy — `NotFound` when no record carries the id,
`Gone` when the record exists with non-null `deletedAt` (the body is never
returned), and the full stored record otherwise. -/
theorem findById_trichotomy (s : Store) (id : Nat) :
    (storeGet s id = none → findById s id = Except.error Err.NotFound) ∧
    (∀ c, storeGet s id = some c → c.deletedAt ≠ JsVal.null →
      findById s id = Except.error Err.Gone) ∧
    (∀ c, storeGet s id = some c → c.deletedAt = JsVal.null →
      findById s id = Except.ok c) := by
  refine ⟨fun h => ?_, fun c hc hd => ?_, fun c hc hd => ?_⟩
  · simp [findById, h]
  · have : isDeleted c = true := by simp [isDeleted, hd]
    simp [findById, hc, this]
  · have : isDeleted c = false := by simp [isDeleted, hd]
    simp [findById, hc, this]

/-- Witness for C7: the active sample course is returned in full. -/
theorem findById_trichotomy_witness :
    findById [courseA] 1 = Except.ok courseA :=
  (findById_trichotomy [courseA] 1).2.2 courseA (by decide) rfl

/-- C9: a stored record whose `deletedAt` is `undefined` (absent) rather than
exactly `null` is treated as soft-deleted by `getById`, which fails with
`Gone`: the test is `!(deletedAt === null)`. -/
theorem findById_gone_on_undef (s : Store) (id : Nat) (c : Course)
    (h : storeGet s id = some c) (hd : c.deletedAt = JsVal.undef) :
    findById s id = Except.error Err.Gone := by
  have : isDeleted c = true := by simp [isDeleted, hd]
  simp [findById, h, this]

/-- Witness for C9: the sample course with `undefined` `deletedAt` yields
`Gone`. -/
theorem findById_gone_on_undef_witness :
    findById [courseU] 1 = Except.error Err.Gone :=
  findById_gone_on_undef [courseU] 1 courseU (by decide) rfl

/-- C10: the name check rejects exactly the strictly-null and strictly-empty
names; an input whose name is `undefined` passes both checks, and (with a
valid status, and for replace an existing id) the request reaches the store:
`create` appends a row and `replaceById` performs the store write. -/
theorem name_check_passes_on_undef (s : Store) (id now : Nat)
    (input : NewCourse) (body : Course)
    (h1 : input.name = JsVal.undef) (h2 : validateStatus input.status = true)
    (h3 : body.name = JsVal.undef) (h4 : validateStatus body.status = true)
    (h5 : (storeGet s id).isSome) :
    (∀ v, nameInvalid v = true ↔ (v = JsVal.null ∨ v = JsVal.val "")) ∧
    (∃ c, create s input now = (s ++ [c], Except.ok c)) ∧
    replaceById s id body now =
      (storeReplace s id { body with updatedAt := now }, Except.ok ()) := by
  refine ⟨nameInvalid_iff, ?_, ?_⟩
  · refine ⟨⟨freshId s, input.name, input.status, now, now, JsVal.null⟩, ?_⟩
    simp [create, storeCreate, h1, h2, nameInvalid]
  · obtain ⟨c, hc⟩ := Option.isSome_iff_exists.mp h5
    simp [replaceById, h3, h4, nameInvalid, hc]

/-- Witness for C10: replacing the sample course with an undefined-name body
succeeds and writes to the store. -/
theorem name_check_passes_on_undef_witness :
    replaceById [courseA] 1 { courseA with name := JsVal.undef } 3 =
      (storeReplace [courseA] 1
        { courseA with name := JsVal.undef, updatedAt := 3 }, Except.ok ()) :=
  (name_check_passes_on_undef [courseA] 1 3
    { name := JsVal.undef, status := JsVal.val "available" }
    { courseA with name := JsVal.undef }
    rfl rfl rfl rfl (by decide)).2.2

/-! ## Delete-path helper lemmas -/

lemma deleteById_gone (s : Store) (id now : Nat) (c : Course)
    (hc : storeGet s id = some c) (hd : isDeleted c = true) :
    deleteById s id now = (s, Except.error Err.Gone) := by
  simp [deleteById, findById, hc, hd]

lemma deleteById_active (s : Store) (id now : Nat) (c : Course)
    (hc : storeGet s id = some c) (hd : isDeleted c = false)
    (hn : nameInvalid c.name = false) (hs : validateStatus c.status = true) :
    deleteById s id now =
      (storeReplace s id { c with deletedAt := JsVal.val now, updatedAt := now },
        Except.ok ()) := by
  simp [deleteById, findById, hc, hd, replaceById, hn, hs]

/-- The record the store persists on `create` (the second component of
`storeCreate`, named for use in proofs). -/
def mkCourse (s : Store) (input : NewCourse) (now : Nat) : Course :=
  { id := freshId s, name := input.name, status := input.status,
    createdAt := now, updatedAt := now, deletedAt := JsVal.null }

/-- A valid replacement body targeting the sample course's id. -/
def replBody : Course :=
  { id := 1, name := JsVal.val "Renamed", status := JsVal.val "available",
    createdAt := 0, updatedAt := 0, deletedAt := JsVal.val 5 }

/-- A replacement body for the sample course carrying a non-null `deletedAt`. -/
def replBodyDel : Course :=
  { id := 1, name := JsVal.val "Intro to Go", status := JsVal.val "scheduled",
    createdAt := 0, updatedAt := 0, deletedAt := JsVal.val 9 }

/-- The record `replaceById` stores for `replBody` at time 10. -/
def replBodyStored : Course :=
  { id := 1, name := JsVal.val "Renamed", status := JsVal.val "available",
    createdAt := 0, updatedAt := 10, deletedAt := JsVal.val 5 }

/-- Counterexample to C1: on a store holding only the soft-deleted sample
course, `replaceById` with a valid body succeeds and changes the stored
record — the update path never consults `deletedAt`, so soft-deleted records
are not immutable via update. -/
theorem replace_mutates_deleted_counterexample :
    isDeleted courseDel = true ∧
    replaceById [courseDel] 1 replBody 10 = ([replBodyStored], Except.ok ()) ∧
    replBodyStored ≠ courseDel := by
  decide

/-- C1 amended: `replaceById` performs no `deletedAt` check, so a call
targeting a soft-deleted record with a valid name and status succeeds and
overwrites the stored record — soft-deleted records are mutable via the
update path. -/
theorem replace_mutates_deleted (s : Store) (id now : Nat) (input : Course)
    (c : Course) (hc : storeGet s id = some c) (_hdel : isDeleted c = true)
    (hn : nameInvalid input.name = false)
    (hs : validateStatus input.status = true) :
    replaceById s id input now =
      (storeReplace s id { input with updatedAt := now }, Except.ok ()) := by
  simp [replaceById, hn, hs, hc]

/-- Witness for the amended C1. -/
theorem replace_mutates_deleted_witness :
    replaceById [courseDel] 1 replBody 10 =
      (storeReplace [courseDel] 1 { replBody with updatedAt := 10 },
        Except.ok ()) :=
  replace_mutates_deleted [courseDel] 1 10 replBody courseDel
    (by decide) (by decide) (by decide) (by decide)

/-- The record `replaceById` stores for `replBodyDel` at time 10. -/
def replBodyDelStored : Course :=
  { id := 1, name := JsVal.val "Intro to Go", status := JsVal.val "scheduled",
    createdAt := 0, updatedAt := 10, deletedAt := JsVal.val 9 }

/-- The record `replaceById` stores when the active sample body overwrites the
deleted sample course at time 10. -/
def courseARestored : Course :=
  { id := 1, name := JsVal.val "Intro to Go", status := JsVal.val "scheduled",
    createdAt := 0, updatedAt := 10, deletedAt := JsVal.null }

/-- Counterexample to C2: starting from the active sample course, a direct
`replaceById` whose body carries a non-null `deletedAt` succeeds and leaves
the record soft-deleted (active→deleted without `deleteById`); conversely,
replacing the soft-deleted sample course with an active body returns it to
active (deleted→active, so the transition is not one-way). -/
theorem replace_transitions_counterexample :
    isDeleted courseA = false ∧
    replaceById [courseA] 1 replBodyDel 10 = ([replBodyDelStored], Except.ok ()) ∧
    isDeleted replBodyDelStored = true ∧
    replaceById [courseDel] 1 courseA 10 = ([courseARestored], Except.ok ()) ∧
    isDeleted courseARestored = false := by
  decide

/-- C2 amended: after a successful `replaceById` the stored record is the
request body (with the path id and a fresh `updatedAt`), so its `deletedAt`
is whatever the body carried — `replaceById` can set `deletedAt` to a
non-null value (this is in fact how `deleteById` writes) and can equally
reset it to null; neither direction of the active/deleted transition is
restricted to `deleteById`. -/
theorem replace_controls_deletedAt (s : Store) (id now : Nat) (input : Course)
    (hex : (storeGet s id).isSome) (hn : nameInvalid input.name = false)
    (hs : validateStatus input.status = true) :
    (replaceById s id input now).2 = Except.ok () ∧
    storeGet (replaceById s id input now).1 id =
      some { input with id := id, updatedAt := now } := by
  obtain ⟨c, hc⟩ := Option.isSome_iff_exists.mp hex
  have h2 : replaceById s id input now =
      (storeReplace s id { input with updatedAt := now }, Except.ok ()) := by
    simp [replaceById, hn, hs, hc]
  rw [h2]
  exact ⟨rfl, storeGet_storeReplace s id _ hex⟩

/-- Witness for the amended C2: the body's non-null `deletedAt` lands in the
store. -/
theorem replace_controls_deletedAt_witness :
    (replaceById [courseA] 1 replBodyDel 10).2 = Except.ok () ∧
    storeGet (replaceById [courseA] 1 replBodyDel 10).1 1 =
      some { replBodyDel with id := 1, updatedAt := 10 } :=
  replace_controls_deletedAt [courseA] 1 10 replBodyDel
    (by decide) (by decide) (by decide)

/-- The record `deleteById` stores when the active sample course is deleted at
time 7: `deletedAt` is set and `updatedAt` is restamped. -/
def courseADeleted7 : Course :=
  { id := 1, name := JsVal.val "Intro to Go", status := JsVal.val "scheduled",
    createdAt := 0, updatedAt := 7, deletedAt := JsVal.val 7 }

/-- Counterexample to C3: deleting the active sample course (`updatedAt = 0`)
at time 7 stores a record whose `updatedAt` is 7 — the delete writes through
the controller's `replaceById`, which restamps `updatedAt`, so the stored
record differs from the fetched one in more than `deletedAt`. -/
theorem delete_changes_updatedAt_counterexample :
    deleteById [courseA] 1 7 = ([courseADeleted7], Except.ok ()) ∧
    courseADeleted7 ≠
      { id := 1, name := JsVal.val "Intro to Go",
        status := JsVal.val "scheduled", createdAt := 0, updatedAt := 0,
        deletedAt := JsVal.val 7 } := by
  decide

/-- C3 amended: a successful `deleteById` on an active record writes back the
fetched record with `deletedAt` set to the current time and `updatedAt`
refreshed to the current time; all remaining fields (id, name, status,
createdAt) are unchanged. -/
theorem delete_writes_deletedAt_updatedAt (s : Store) (id now : Nat)
    (c : Course) (hc : storeGet s id = some c)
    (hd : c.deletedAt = JsVal.null)
    (hn : nameInvalid c.name = false) (hs : validateStatus c.status = true) :
    deleteById s id now =
      (storeReplace s id { c with deletedAt := JsVal.val now, updatedAt := now },
        Except.ok ()) := by
  have hnd : isDeleted c = false := by simp [isDeleted, hd]
  exact deleteById_active s id now c hc hnd hn hs

/-- Witness for the amended C3. -/
theorem delete_writes_deletedAt_updatedAt_witness :
    deleteById [courseA] 1 7 =
      (storeReplace [courseA] 1
        { courseA with deletedAt := JsVal.val 7, updatedAt := 7 },
        Except.ok ()) :=
  delete_writes_deletedAt_updatedAt [courseA] 1 7 courseA
    (by decide) rfl rfl rfl

/-- C6: for every store content and caller-supplied filter, the listing path
returns the `{id, name}` projection of some ordering of exactly the records
whose `deletedAt` is null, and that ordering is sorted by `createdAt`
ascending — soft-deleted records never appear. -/
theorem list_exactly_active_sorted (s : Store) (f : CourseFilter) :
    ∃ l : List Course,
      List.Perm l (s.filter (fun c => c.deletedAt == JsVal.null)) ∧
      l.Pairwise createdLe ∧
      list s f = l.map (projectRow true) := by
  refine ⟨List.insertionSort createdLe
    (s.filter (fun c => c.deletedAt == JsVal.null)), ?_, ?_, ?_⟩
  · exact List.perm_insertionSort createdLe _
  · exact List.sorted_insertionSort createdLe _
  · rfl

/-- C8: creating a course and then deleting it twice with no interleaving
operation: the create persists a row, the first `deleteById` succeeds, and
the second fails with `Gone` while leaving the store exactly as the first
delete left it. -/
theorem delete_twice (s : Store) (input : NewCourse) (t1 t2 t3 : Nat)
    (hn : nameInvalid input.name = false)
    (hs : validateStatus input.status = true) :
    ∃ c : Course,
      create s input t1 = (s ++ [c], Except.ok c) ∧
      (deleteById (s ++ [c]) c.id t2).2 = Except.ok () ∧
      deleteById (deleteById (s ++ [c]) c.id t2).1 c.id t3 =
        ((deleteById (s ++ [c]) c.id t2).1, Except.error Err.Gone) := by
  have hfresh : ∀ r ∈ s, r.id ≠ (mkCourse s input t1).id :=
    fun r hr => freshId_not_used s r hr
  have hget1 : storeGet (s ++ [mkCourse s input t1]) (mkCourse s input t1).id =
      some (mkCourse s input t1) :=
    storeGet_append_fresh s _ hfresh
  have h1 : deleteById (s ++ [mkCourse s input t1]) (mkCourse s input t1).id t2 =
      (storeReplace (s ++ [mkCourse s input t1]) (mkCourse s input t1).id
        { mkCourse s input t1 with deletedAt := JsVal.val t2, updatedAt := t2 },
        Except.ok ()) :=
    deleteById_active _ _ _ _ hget1 rfl hn hs
  have hIs : (storeGet (s ++ [mkCourse s input t1])
      (mkCourse s input t1).id).isSome := by
    rw [hget1]; rfl
  have hget2 := storeGet_storeReplace (s ++ [mkCourse s input t1])
    (mkCourse s input t1).id
    { mkCourse s input t1 with deletedAt := JsVal.val t2, updatedAt := t2 } hIs
  have h2 := deleteById_gone _ (mkCourse s input t1).id t3 _ hget2 rfl
  refine ⟨mkCourse s input t1, ?_, ?_, ?_⟩
  · simp [create, storeCreate, mkCourse, hn, hs]
  · rw [h1]
  · rw [h1]; exact h2

/-- Witness for C8 on the empty store. -/
theorem delete_twice_witness :
    ∃ c : Course,
      create []
          { name := JsVal.val "Intro to Go", status := JsVal.val "scheduled" }
          1 =
        ([] ++ [c], Except.ok c) ∧
      (deleteById ([] ++ [c]) c.id 2).2 = Except.ok () ∧
      deleteById (deleteById ([] ++ [c]) c.id 2).1 c.id 3 =
        ((deleteById ([] ++ [c]) c.id 2).1, Except.error Err.Gone) :=
  delete_twice [] _ 1 2 3 (by decide) (by decide)
